import Mathlib

/-!
Verification of the TensorBoard compression dashboard plugin
(compression_board_plugin/compression_plugin.py).

The dashboard's client-side code manipulates JSON records whose numeric
fields are IEEE doubles produced by exact reads of stored scalars; all the
arithmetic the claims are about (fp32/int8 division, comparison, fixed-point
formatting) is modelled over the rationals, with a missing JSON field
(null/undefined) modelled as Option.none.  JavaScript has no exceptions in
the modelled fragment, and Python exceptions are modelled with Except.
-/

/-- One run record as served by the summary endpoint (the keys built in
_serve_summary, lines 2561-2578 of compression_plugin.py).  Every numeric
field is independently optional: absence is JSON null. -/
structure RunRecord where
  run : String
  accuracy_fp32 : Option ℚ
  accuracy_int8 : Option ℚ
  accuracy_drop : Option ℚ
  size_ratio : Option ℚ
  speedup : Option ℚ
  memory_reduction_mb : Option ℚ
  energy_reduction_mw : Option ℚ
  model_size_fp32 : Option ℚ
  model_size_int8 : Option ℚ
  latency_fp32 : Option ℚ
  latency_int8 : Option ℚ
  memory_fp32 : Option ℚ
  memory_int8 : Option ℚ
  energy_fp32 : Option ℚ
  energy_int8 : Option ℚ
deriving DecidableEq

/-- calculateRatio (compression_plugin.py lines 1347-1352):
returns null when fp32 is null/undefined, int8 is null/undefined, or
int8 is exactly 0; otherwise fp32 / int8.  In the rational model the
guarded division is exact, so no NaN or Infinity can arise. -/
def calculateRatio (fp32 int8 : Option ℚ) : Option ℚ :=
  match fp32, int8 with
  | some f, some i => if i = 0 then none else some (f / i)
  | _, _ => none

/-- The row produced by the derivation step of render (lines 1309-1321):
the original record spread plus the four computed ratio fields.  The spread
overwrites the record's own size_ratio key, so the derived size_ratio lives
here while the raw precomputed one stays in rec. -/
structure DerivedRun where
  base : RunRecord
  accuracy_ratio : Option ℚ
  latency_ratio : Option ℚ
  energy_ratio : Option ℚ
  size_ratio : Option ℚ
deriving DecidableEq

/-- The map body of render (lines 1310-1320): accuracy and energy ratios are
always computed locally; latency prefers the precomputed speedup field and
size prefers the precomputed size_ratio field. -/
def deriveRatios (r : RunRecord) : DerivedRun :=
  { base := r
  , accuracy_ratio := calculateRatio r.accuracy_fp32 r.accuracy_int8
  , latency_ratio :=
      match r.speedup with
      | some v => some v
      | none => calculateRatio r.latency_fp32 r.latency_int8
  , energy_ratio := calculateRatio r.energy_fp32 r.energy_int8
  , size_ratio :=
      match r.size_ratio with
      | some v => some v
      | none => calculateRatio r.model_size_fp32 r.model_size_int8 }

/-- Claim C1: for every record and ratio family, a missing fp32 value, a
missing int8 value, or an int8 value of exactly 0 makes the locally derived
ratio null (never NaN, Infinity, or zero, none of which a null can denote),
and when both raw values are present with nonzero int8 the ratio is exactly
fp32 / int8; the four families of deriveRatios all go through
calculateRatio when no precomputed field short-circuits them. -/
theorem calculateRatio_contract :
    ∀ (fp32 int8 : Option ℚ),
      ((fp32 = none ∨ int8 = none ∨ int8 = some 0) →
        calculateRatio fp32 int8 = none) ∧
      (∀ x y : ℚ, fp32 = some x → int8 = some y → y ≠ 0 →
        calculateRatio fp32 int8 = some (x / y)) ∧
      (∀ r : RunRecord,
        (deriveRatios r).accuracy_ratio
            = calculateRatio r.accuracy_fp32 r.accuracy_int8 ∧
        (deriveRatios r).energy_ratio
            = calculateRatio r.energy_fp32 r.energy_int8 ∧
        (r.speedup = none → (deriveRatios r).latency_ratio
            = calculateRatio r.latency_fp32 r.latency_int8) ∧
        (r.size_ratio = none → (deriveRatios r).size_ratio
            = calculateRatio r.model_size_fp32 r.model_size_int8)) := by
  intro fp32 int8
  refine ⟨?_, ?_, ?_⟩
  · rintro (rfl | rfl | rfl)
    · cases int8 <;> rfl
    · cases fp32 <;> rfl
    · cases fp32 <;> simp [calculateRatio]
  · rintro x y rfl rfl hy
    simp [calculateRatio, hy]
  · intro r
    refine ⟨rfl, rfl, ?_, ?_⟩
    · intro h; simp [deriveRatios, h]
    · intro h; simp [deriveRatios, h]

/-- Concrete instance of Claim C1: 6/2 with nonzero denominator gives
exactly 3, and a zero int8 denominator gives null. -/
theorem calculateRatio_contract_witness :
    calculateRatio (some 6) (some 2) = some 3 ∧
    calculateRatio (some 1) (some 0) = none := by
  constructor
  · have h := (calculateRatio_contract (some 6) (some 2)).2.1 6 2 rfl rfl
      (by norm_num)
    rw [h, show (6 : ℚ) / 2 = 3 by norm_num]
  · exact (calculateRatio_contract (some 1) (some 0)).1 (Or.inr (Or.inr rfl))

/-- Claim C2: when the record carries a precomputed ratio field of a family
(speedup for latency, size_ratio for size; the record schema carries no
precomputed accuracy or energy ratio), the derivation step of render uses
that value unchanged, taking precedence over the local fp32/int8 ratio. -/
theorem deriveRatios_prefers_precomputed :
    ∀ (r : RunRecord) (v w : ℚ),
      r.speedup = some v → r.size_ratio = some w →
      (deriveRatios r).latency_ratio = some v ∧
      (deriveRatios r).size_ratio = some w := by
  intro r v w hv hw
  constructor
  · simp [deriveRatios, hv]
  · simp [deriveRatios, hw]

/-- A record carrying both precomputed ratio fields and full raw pairs. -/
def sampleRecord : RunRecord :=
  { run := "alexnet"
  , accuracy_fp32 := some (99/100)
  , accuracy_int8 := some (99/100)
  , accuracy_drop := some 0
  , size_ratio := some 20
  , speedup := some 3
  , memory_reduction_mb := none
  , energy_reduction_mw := none
  , model_size_fp32 := some 200
  , model_size_int8 := some 10
  , latency_fp32 := some 8
  , latency_int8 := some 2
  , memory_fp32 := none
  , memory_int8 := none
  , energy_fp32 := none
  , energy_int8 := none }

/-- Concrete instance of Claim C2: sampleRecord has speedup 3 and raw
latencies 8/2 = 4, yet the derived latency ratio is the precomputed 3;
likewise size_ratio 20 beats 200/10. -/
theorem deriveRatios_prefers_precomputed_witness :
    (deriveRatios sampleRecord).latency_ratio = some 3 ∧
    (deriveRatios sampleRecord).size_ratio = some 20 :=
  deriveRatios_prefers_precomputed sampleRecord 3 20 rfl rfl

/-- The columns of the two tables: run plus the four ratio columns of the
relative metrics table (lines 2280-2286) and the eight raw columns of the
raw metrics table (lines 2356-2366). -/
inductive Col where
  | run
  | accuracy_ratio
  | latency_ratio
  | energy_ratio
  | size_ratio
  | accuracy_fp32
  | accuracy_int8
  | latency_fp32
  | latency_int8
  | energy_fp32
  | energy_int8
  | model_size_fp32
  | model_size_int8
deriving DecidableEq

/-- A JavaScript value stored in a table cell: the run id string, a finite
number, or null/undefined. -/
inductive JVal where
  | str (s : String)
  | num (q : ℚ)
  | null
deriving DecidableEq

/-- An optional numeric field as a cell value. -/
def optCell : Option ℚ → JVal
  | some q => .num q
  | none => .null

/-- Column lookup a[sortColumn] on a derived row (line 1326).  The derived
size_ratio shadows the record's own size_ratio key, exactly as the object
spread in render does. -/
def getCell (r : DerivedRun) : Col → JVal
  | .run => .str r.base.run
  | .accuracy_ratio => optCell r.accuracy_ratio
  | .latency_ratio => optCell r.latency_ratio
  | .energy_ratio => optCell r.energy_ratio
  | .size_ratio => optCell r.size_ratio
  | .accuracy_fp32 => optCell r.base.accuracy_fp32
  | .accuracy_int8 => optCell r.base.accuracy_int8
  | .latency_fp32 => optCell r.base.latency_fp32
  | .latency_int8 => optCell r.base.latency_int8
  | .energy_fp32 => optCell r.base.energy_fp32
  | .energy_int8 => optCell r.base.energy_int8
  | .model_size_fp32 => optCell r.base.model_size_fp32
  | .model_size_int8 => optCell r.base.model_size_int8

/-- The explicit null/undefined substitution of lines 1328-1329: a missing
value is replaced by -Infinity (the bottom of the extended number line)
before comparison.  Strings pass through untouched. -/
def substMissing : JVal → WithBot ℚ ⊕ String
  | .null => Sum.inl ⊥
  | .num q => Sum.inl (q : ℚ)
  | .str s => Sum.inr s

/-- The comparator body of line 1330: aVal > bVal ? 1 : aVal < bVal ? -1 : 0
after the -Infinity substitution.  JavaScript compares two numbers
numerically and two strings lexicographically; a mixed string/number pair
(unreachable here, every column is homogeneous) coerces the run-name string
to NaN, making both comparisons false, hence 0. -/
def cmpChain {α : Type _} [LinearOrder α] (x y : α) : ℤ :=
  if x > y then 1 else if x < y then -1 else 0

def jsCompare (a b : JVal) : ℤ :=
  match substMissing a, substMissing b with
  | Sum.inl x, Sum.inl y => cmpChain x y
  | Sum.inr s, Sum.inr t => cmpChain s t
  | _, _ => 0

/-- The ascending/descending toggle state. -/
inductive SortDir where
  | asc
  | desc
deriving DecidableEq

/-- Line 1331: the ascending comparison, negated when descending. -/
def sortComparator (d : SortDir) (c : Col) (a b : DerivedRun) : ℤ :=
  match d with
  | .asc => jsCompare (getCell a c) (getCell b c)
  | .desc => - jsCompare (getCell a c) (getCell b c)

/-- The numeric key a cell is effectively ordered by: null is the minimum
possible value (-Infinity); string cells never occur in numeric columns. -/
def cellKey : JVal → WithBot ℚ
  | .null => ⊥
  | .num q => (q : ℚ)
  | .str _ => ⊥

/-- The sortColumn/sortDirection pair of the view state (lines 1228-1229). -/
structure SortState where
  sortColumn : Option Col
  sortDirection : SortDir
deriving DecidableEq

/-- The direction flip of a repeated header click. -/
def flipDir : SortDir → SortDir
  | .asc => .desc
  | .desc => .asc

/-- The column-header click handler shared by both tables (lines 2318-2327
and 2402-2411): clicking the active column flips the direction, clicking a
different column selects it ascending. -/
def clickHeader (s : SortState) (c : Col) : SortState :=
  if s.sortColumn = some c then
    { sortColumn := s.sortColumn, sortDirection := flipDir s.sortDirection }
  else
    { sortColumn := some c, sortDirection := SortDir.asc }

/-- The sort step of render (lines 1324-1333): stable sort by the active
column's comparator, identity when no column is active. -/
def sortRuns (s : SortState) (runs : List DerivedRun) : List DerivedRun :=
  match s.sortColumn with
  | none => runs
  | some c =>
      runs.mergeSort (fun a b =>
        decide (sortComparator s.sortDirection c a b ≤ 0))

lemma optCell_shape (o : Option ℚ) :
    optCell o = JVal.null ∨ ∃ q, optCell o = JVal.num q := by
  cases o <;> simp [optCell]

lemma getCell_numeric (r : DerivedRun) (c : Col) (hc : c ≠ Col.run) :
    getCell r c = JVal.null ∨ ∃ q, getCell r c = JVal.num q := by
  cases c
  case run => exact absurd rfl hc
  all_goals exact optCell_shape _

lemma substMissing_inl (v : JVal)
    (hv : v = JVal.null ∨ ∃ q, v = JVal.num q) :
    substMissing v = Sum.inl (cellKey v) := by
  rcases hv with rfl | ⟨q, rfl⟩ <;> rfl

lemma cmpChain_spec {α : Type _} [LinearOrder α] (x y : α) :
    (cmpChain x y = -1 ↔ x < y) ∧
    (cmpChain x y = 0 ↔ x = y) ∧
    (cmpChain x y = 1 ↔ y < x) := by
  unfold cmpChain
  rcases lt_trichotomy x y with h | h | h
  · simp [gt_iff_lt, asymm h, h, h.ne]
  · simp [h, lt_irrefl]
  · simp [gt_iff_lt, asymm h, h, h.ne.symm]

lemma cmpChain_antisymm {α : Type _} [LinearOrder α] (x y : α) :
    cmpChain y x = -cmpChain x y := by
  unfold cmpChain
  rcases lt_trichotomy x y with h | h | h
  · simp [gt_iff_lt, asymm h, h]
  · simp [h, lt_irrefl]
  · simp [gt_iff_lt, asymm h, h]

lemma cmpChain_range {α : Type _} [LinearOrder α] (x y : α) :
    cmpChain x y = 0 ∨ cmpChain x y = 1 ∨ cmpChain x y = -1 := by
  unfold cmpChain
  split
  · exact Or.inr (Or.inl rfl)
  · split
    · exact Or.inr (Or.inr rfl)
    · exact Or.inl rfl

lemma jsCompare_numeric (v w : JVal)
    (hv : v = JVal.null ∨ ∃ q, v = JVal.num q)
    (hw : w = JVal.null ∨ ∃ q, w = JVal.num q) :
    (jsCompare v w = -1 ↔ cellKey v < cellKey w) ∧
    (jsCompare v w = 0 ↔ cellKey v = cellKey w) ∧
    (jsCompare v w = 1 ↔ cellKey w < cellKey v) := by
  rcases hv with rfl | ⟨q, rfl⟩ <;> rcases hw with rfl | ⟨p, rfl⟩ <;>
    exact cmpChain_spec _ _

lemma jsCompare_antisymm (v w : JVal) : jsCompare w v = -jsCompare v w := by
  cases v <;> cases w <;>
    first
      | exact (neg_zero).symm
      | exact cmpChain_antisymm _ _

lemma jsCompare_range (v w : JVal) :
    jsCompare v w = 0 ∨ jsCompare v w = 1 ∨ jsCompare v w = -1 := by
  cases v <;> cases w <;>
    first
      | exact Or.inl rfl
      | exact cmpChain_range _ _

/-- Claim C3: for every pair of rows and every active sort column the
comparator of render is total: it always returns exactly one of -1, 0, 1,
antisymmetrically, and on the numeric columns the ascending comparison
agrees with the linear order of the cell keys in which null is the bottom
element, so an undefined value is strictly below every defined value; the
substitution to the minimum happens before the direction sign is applied,
so under either toggle polarity an undefined and a defined value are
strictly ordered, never tied. -/
theorem sortComparator_total_missing_min :
    ∀ (c : Col) (d : SortDir) (a b : DerivedRun),
      (sortComparator d c a b = 0 ∨ sortComparator d c a b = 1 ∨
        sortComparator d c a b = -1) ∧
      sortComparator d c b a = -sortComparator d c a b ∧
      sortComparator SortDir.desc c a b = -sortComparator SortDir.asc c a b ∧
      cellKey JVal.null = ⊥ ∧
      (c ≠ Col.run →
        ((sortComparator SortDir.asc c a b = -1 ↔
            cellKey (getCell a c) < cellKey (getCell b c)) ∧
         (sortComparator SortDir.asc c a b = 0 ↔
            cellKey (getCell a c) = cellKey (getCell b c)) ∧
         (sortComparator SortDir.asc c a b = 1 ↔
            cellKey (getCell b c) < cellKey (getCell a c)) ∧
         (getCell a c = JVal.null → getCell b c ≠ JVal.null →
            sortComparator SortDir.asc c a b = -1 ∧
            sortComparator d c a b ≠ 0))) := by
  intro c d a b
  refine ⟨?_, ?_, ?_, rfl, ?_⟩
  · cases d
    · exact jsCompare_range _ _
    · rcases jsCompare_range (getCell a c) (getCell b c) with h | h | h <;>
        simp [sortComparator, h]
  · cases d
    · exact jsCompare_antisymm _ _
    · simpa [sortComparator] using
        congrArg Neg.neg (jsCompare_antisymm (getCell a c) (getCell b c))
  · rfl
  · intro hc
    have ha := getCell_numeric a c hc
    have hb := getCell_numeric b c hc
    have hspec := jsCompare_numeric (getCell a c) (getCell b c) ha hb
    refine ⟨hspec.1, hspec.2.1, hspec.2.2, ?_⟩
    intro hnull hdef
    rcases hb with hb | ⟨q, hb⟩
    · exact absurd hb hdef
    · have hlt : cellKey (getCell a c) < cellKey (getCell b c) := by
        rw [hnull, hb]
        exact WithBot.bot_lt_coe q
      have hasc : sortComparator SortDir.asc c a b = -1 := hspec.1.mpr hlt
      refine ⟨hasc, ?_⟩
      cases d
      · rw [hasc]; decide
      · have : sortComparator SortDir.desc c a b
            = -sortComparator SortDir.asc c a b := rfl
        rw [this, hasc]; decide

/-- A record with every optional field missing, as a run with no stored
scalars would produce. -/
def blankRecord (name : String) : RunRecord :=
  { run := name
  , accuracy_fp32 := none
  , accuracy_int8 := none
  , accuracy_drop := none
  , size_ratio := none
  , speedup := none
  , memory_reduction_mb := none
  , energy_reduction_mw := none
  , model_size_fp32 := none
  , model_size_int8 := none
  , latency_fp32 := none
  , latency_int8 := none
  , memory_fp32 := none
  , memory_int8 := none
  , energy_fp32 := none
  , energy_int8 := none }

/-- A derived row with an undefined accuracy ratio. -/
def rowUndefined : DerivedRun :=
  { base := blankRecord "a"
  , accuracy_ratio := none
  , latency_ratio := none
  , energy_ratio := none
  , size_ratio := none }

/-- A derived row with a defined accuracy ratio. -/
def rowDefined : DerivedRun :=
  { base := blankRecord "b"
  , accuracy_ratio := some 1
  , latency_ratio := none
  , energy_ratio := none
  , size_ratio := none }

/-- Concrete instance of Claim C3: on the accuracy-ratio column the row
with the undefined value compares strictly below the defined one when
ascending, and the pair is still strictly ordered (not tied) when the
toggle is descending. -/
theorem sortComparator_total_missing_min_witness :
    sortComparator SortDir.asc Col.accuracy_ratio rowUndefined rowDefined
        = -1 ∧
    sortComparator SortDir.desc Col.accuracy_ratio rowUndefined rowDefined
        ≠ 0 := by
  have h := (sortComparator_total_missing_min Col.accuracy_ratio
      SortDir.desc rowUndefined rowDefined).2.2.2.2 (by decide)
  have h5 := h.2.2.2 rfl (by simp [rowDefined, getCell, optCell])
  exact ⟨h5.1, h5.2⟩

/-- Claim C4: the header-click state machine of both tables: a first click
on a new column sorts it ascending, a second click on the same column flips
to descending, a click on a different column resets to ascending there, and
the asc-desc-asc cycle of three clicks on one column restores the exact
state of the first click, hence an identical row order for the same
visible-run set. -/
theorem clickHeader_toggle_cycle :
    ∀ (s : SortState) (c c2 : Col) (d : SortDir) (runs : List DerivedRun),
      (s.sortColumn ≠ some c →
        clickHeader s c
          = { sortColumn := some c, sortDirection := SortDir.asc }) ∧
      clickHeader { sortColumn := some c, sortDirection := SortDir.asc } c
        = { sortColumn := some c, sortDirection := SortDir.desc } ∧
      (c2 ≠ c →
        clickHeader { sortColumn := some c, sortDirection := d } c2
          = { sortColumn := some c2, sortDirection := SortDir.asc }) ∧
      (s.sortColumn ≠ some c →
        clickHeader (clickHeader (clickHeader s c) c) c = clickHeader s c ∧
        sortRuns (clickHeader (clickHeader (clickHeader s c) c) c) runs
          = sortRuns (clickHeader s c) runs) := by
  intro s c c2 d runs
  have e2 : clickHeader { sortColumn := some c, sortDirection := SortDir.asc }
      c = { sortColumn := some c, sortDirection := SortDir.desc } := by
    simp [clickHeader, flipDir]
  have e3 : clickHeader { sortColumn := some c, sortDirection := SortDir.desc }
      c = { sortColumn := some c, sortDirection := SortDir.asc } := by
    simp [clickHeader, flipDir]
  refine ⟨?_, e2, ?_, ?_⟩
  · intro h
    simp [clickHeader, h]
  · intro h
    have h' : ¬ ((some c : Option Col) = some c2) := by
      simp [Ne.symm h]
    simp [clickHeader, h']
  · intro h
    have e1 : clickHeader s c
        = { sortColumn := some c, sortDirection := SortDir.asc } := by
      simp [clickHeader, h]
    rw [e1, e2, e3]
    exact ⟨rfl, rfl⟩

/-- Concrete instance of Claim C4: from the initial state (no sort column)
clicking the size-ratio header selects it ascending, a different column
resets to ascending, and three clicks land back on the state of the first
click with the same sorted rows. -/
theorem clickHeader_toggle_cycle_witness :
    clickHeader { sortColumn := none, sortDirection := SortDir.asc }
        Col.size_ratio
      = { sortColumn := some Col.size_ratio, sortDirection := SortDir.asc } ∧
    clickHeader
        { sortColumn := some Col.size_ratio, sortDirection := SortDir.desc }
        Col.run
      = { sortColumn := some Col.run, sortDirection := SortDir.asc } ∧
    sortRuns (clickHeader (clickHeader (clickHeader
        { sortColumn := none, sortDirection := SortDir.asc }
        Col.size_ratio) Col.size_ratio) Col.size_ratio)
        [rowUndefined, rowDefined]
      = sortRuns (clickHeader
        { sortColumn := none, sortDirection := SortDir.asc }
        Col.size_ratio) [rowUndefined, rowDefined] := by
  have h := clickHeader_toggle_cycle
    { sortColumn := none, sortDirection := SortDir.asc }
    Col.size_ratio Col.run SortDir.desc [rowUndefined, rowDefined]
  exact ⟨h.1 (by simp), h.2.2.1 (by decide), (h.2.2.2 (by simp)).2⟩

/-- The client-side view state mutated by the event handlers
(lines 1224-1229): the checked run ids, the sidebar search text and the
active sort. -/
structure ViewState where
  visibleRuns : List String
  searchTerm : String
  sortColumn : Option Col
  sortDirection : SortDir
deriving DecidableEq

/-- The searchBox input handler (lines 2467-2470): it assigns searchTerm
and re-renders the sidebar; no other state is touched. -/
def onSearchInput (st : ViewState) (t : String) : ViewState :=
  { st with searchTerm := t }

/-- toLowerCase, modelled per character (ASCII case folding, which is what
the run names produced by the writer use). -/
def jsToLower (s : String) : String :=
  String.mk (s.data.map Char.toLower)

/-- Whether the character list starts with the given needle. -/
def seqStartsWith : List Char → List Char → Bool
  | _, [] => true
  | [], _ :: _ => false
  | c :: cs, d :: ds => c == d && seqStartsWith cs ds

/-- Whether the needle occurs contiguously inside the haystack; this is the
semantics of JavaScript String.prototype.includes. -/
def seqContains : List Char → List Char → Bool
  | [], needle => needle.isEmpty
  | c :: cs, needle => seqStartsWith (c :: cs) needle || seqContains cs needle

/-- haystack.includes(needle) on strings. -/
def jsIncludes (hay needle : String) : Bool :=
  seqContains hay.data needle.data

/-- The sidebar filter of renderSidebar (lines 1249-1252): display only the
runs whose lowercased id contains the lowercased search term. -/
def sidebarEntries (allRuns : List RunRecord) (searchTerm : String) :
    List RunRecord :=
  allRuns.filter (fun r => jsIncludes (jsToLower r.run) (jsToLower searchTerm))

/-- Claim C6: a search-text change event only replaces searchTerm; the
visibleRuns set and the sort state are untouched, and the sidebar shows
exactly the runs whose id matches the search term case-insensitively as a
substring. -/
theorem onSearchInput_frame :
    ∀ (st : ViewState) (t : String) (allRuns : List RunRecord)
      (r : RunRecord),
      (onSearchInput st t).visibleRuns = st.visibleRuns ∧
      (onSearchInput st t).sortColumn = st.sortColumn ∧
      (onSearchInput st t).sortDirection = st.sortDirection ∧
      (onSearchInput st t).searchTerm = t ∧
      (r ∈ sidebarEntries allRuns (onSearchInput st t).searchTerm ↔
        r ∈ allRuns ∧ jsIncludes (jsToLower r.run) (jsToLower t) = true) := by
  intro st t allRuns r
  refine ⟨rfl, rfl, rfl, rfl, ?_⟩
  simp [sidebarEntries, onSearchInput, List.mem_filter]

/-- The four Pareto chart configurations of the chart grid: x is one of
model size, latency, memory, energy (the xKeyMap of lines 1548-1553). -/
inductive XKey where
  | model_size
  | latency
  | memory
  | energy
deriving DecidableEq

/-- The fp32 x-field selected by xKeyMap for a chart. -/
def xValFp32 (xk : XKey) (r : DerivedRun) : Option ℚ :=
  match xk with
  | .model_size => r.base.model_size_fp32
  | .latency => r.base.latency_fp32
  | .memory => r.base.memory_fp32
  | .energy => r.base.energy_fp32

/-- The int8 x-field selected by xKeyMap for a chart. -/
def xValInt8 (xk : XKey) (r : DerivedRun) : Option ℚ :=
  match xk with
  | .model_size => r.base.model_size_int8
  | .latency => r.base.latency_int8
  | .memory => r.base.memory_int8
  | .energy => r.base.energy_int8

/-- One plotted point: run id, x metric value, accuracy. -/
structure ChartPoint where
  run : String
  x : ℚ
  y : ℚ
deriving DecidableEq

/-- The FP32 series built by the runs.forEach of renderChartWithD3
(lines 1557-1572): a point per run whose x-field and fp32 accuracy are both
present. -/
def fp32Points (runs : List DerivedRun) (xk : XKey) : List ChartPoint :=
  runs.filterMap (fun r =>
    match xValFp32 xk r, r.base.accuracy_fp32 with
    | some xv, some yv => some { run := r.base.run, x := xv, y := yv }
    | _, _ => none)

/-- The INT8 series (lines 1573-1583). -/
def int8Points (runs : List DerivedRun) (xk : XKey) : List ChartPoint :=
  runs.filterMap (fun r =>
    match xValInt8 xk r, r.base.accuracy_int8 with
    | some xv, some yv => some { run := r.base.run, x := xv, y := yv }
    | _, _ => none)

/-- What renderChartWithD3 draws. -/
inductive ChartOutput where
  | placeholder (msg : String)
  | plot (fp32 int8 : List ChartPoint)
deriving DecidableEq

/-- The data preparation and empty-data branch of renderChartWithD3
(lines 1544-1589): if both series are empty the chart body becomes the
placeholder message, otherwise the two series are plotted. -/
def renderChartWithD3 (runs : List DerivedRun) (xk : XKey) : ChartOutput :=
  let fp32Data := fp32Points runs xk
  let int8Data := int8Points runs xk
  if fp32Data.isEmpty && int8Data.isEmpty then
    ChartOutput.placeholder "No data available for chart"
  else
    ChartOutput.plot fp32Data int8Data

/-- Claim C7: a run contributes a point to the FP32 (resp. INT8) series of
a chart exactly when both the chart's x-field and the accuracy field of
that precision are present; a missing field omits only that point, and the
chart shows the placeholder message exactly when both series are empty. -/
theorem chart_point_inclusion :
    ∀ (runs : List DerivedRun) (xk : XKey) (p : ChartPoint),
      (p ∈ fp32Points runs xk ↔
        ∃ r ∈ runs, xValFp32 xk r = some p.x ∧
          r.base.accuracy_fp32 = some p.y ∧ r.base.run = p.run) ∧
      (p ∈ int8Points runs xk ↔
        ∃ r ∈ runs, xValInt8 xk r = some p.x ∧
          r.base.accuracy_int8 = some p.y ∧ r.base.run = p.run) ∧
      (renderChartWithD3 runs xk
          = ChartOutput.placeholder "No data available for chart" ↔
        fp32Points runs xk = [] ∧ int8Points runs xk = []) := by
  intro runs xk p
  refine ⟨?_, ?_, ?_⟩
  · rw [fp32Points, List.mem_filterMap]
    constructor
    · rintro ⟨r, hr, hsome⟩
      rcases hx : xValFp32 xk r with _ | xv <;> rw [hx] at hsome
      · exact absurd hsome (by simp)
      rcases hy : r.base.accuracy_fp32 with _ | yv <;> rw [hy] at hsome
      · exact absurd hsome (by simp)
      simp only [Option.some_inj] at hsome
      exact ⟨r, hr, by rw [hx, ← hsome], by rw [hy, ← hsome], by
        rw [← hsome]⟩
    · rintro ⟨r, hr, hx, hy, hrun⟩
      refine ⟨r, hr, ?_⟩
      rw [hx, hy]
      cases p
      simp_all
  · rw [int8Points, List.mem_filterMap]
    constructor
    · rintro ⟨r, hr, hsome⟩
      rcases hx : xValInt8 xk r with _ | xv <;> rw [hx] at hsome
      · exact absurd hsome (by simp)
      rcases hy : r.base.accuracy_int8 with _ | yv <;> rw [hy] at hsome
      · exact absurd hsome (by simp)
      simp only [Option.some_inj] at hsome
      exact ⟨r, hr, by rw [hx, ← hsome], by rw [hy, ← hsome], by
        rw [← hsome]⟩
    · rintro ⟨r, hr, hx, hy, hrun⟩
      refine ⟨r, hr, ?_⟩
      rw [hx, hy]
      cases p
      simp_all
  · rw [renderChartWithD3]
    split
    · rename_i hemp
      rw [Bool.and_eq_true, List.isEmpty_iff, List.isEmpty_iff] at hemp
      simp [hemp]
    · rename_i hemp
      rw [Bool.and_eq_true, List.isEmpty_iff, List.isEmpty_iff] at hemp
      constructor
      · intro hcontra
        exact ChartOutput.noConfusion hcontra
      · intro hboth
        exact absurd hboth hemp

/-- The double-quote character, written by code point to keep the CSV
string manipulation readable. -/
def quoteChar : Char := Char.ofNat 34

/-- Left-pad a digit string with zeros to the requested width (the
fixed-width fraction part of toFixed). -/
def padZeros (s : String) (f : Nat) : String :=
  String.mk (List.replicate (f - s.length) '0') ++ s

/-- Decimal rendering of a scaled magnitude m with f fraction digits. -/
def jsToFixedParts (m f : Nat) : String :=
  let ip := m / 10 ^ f
  let fp := m % 10 ^ f
  if f = 0 then toString ip
  else toString ip ++ "." ++ padZeros (toString fp) f

/-- Number.prototype.toFixed(f): sign from the number, magnitude rounded to
the nearest multiple of 10^(-f) with ties away from zero (the tie picks the
larger scaled integer per the ECMAScript algorithm). -/
def jsToFixed (q : ℚ) (f : Nat) : String :=
  (if q < 0 then "-" else "")
    ++ jsToFixedParts (⌊|q| * 10 ^ f + 1 / 2⌋).toNat f

/-- An optional field as exported: value.toFixed(f) when present, the empty
string when null (lines 2240-2251). -/
def optFixed (v : Option ℚ) (f : Nat) : String :=
  match v with
  | some q => jsToFixed q f
  | none => ""

/-- formatVal (line 1232): a displayed raw value is toFixed(4), dash when
missing. -/
def formatVal (v : Option ℚ) : String :=
  match v with
  | some q => jsToFixed q 4
  | none => "-"

/-- formatRatio (line 1233): a displayed ratio is toFixed(2) plus a
trailing x, dash when missing. -/
def formatRatio (v : Option ℚ) : String :=
  match v with
  | some q => jsToFixed q 2 ++ "x"
  | none => "-"

/-- The fixed header row of exportToCSV (line 2239). -/
def csvHeaders : List String :=
  ["Run", "FP32 Acc", "INT8 Acc", "Accuracy Drop", "Size Ratio", "Speedup",
   "Memory Reduction (MB)", "Energy Reduction (mW)", "Model Size FP32 (MB)",
   "Model Size INT8 (MB)"]

/-- One exported row (lines 2240-2251): accuracies and reductions at 4
decimals, size_ratio, speedup and both model sizes at 2 decimals. -/
def csvRow (r : RunRecord) : List String :=
  [ r.run
  , optFixed r.accuracy_fp32 4
  , optFixed r.accuracy_int8 4
  , optFixed r.accuracy_drop 4
  , optFixed r.size_ratio 2
  , optFixed r.speedup 2
  , optFixed r.memory_reduction_mb 4
  , optFixed r.energy_reduction_mw 4
  , optFixed r.model_size_fp32 2
  , optFixed r.model_size_int8 2 ]

/-- The replace of line 2254: every double quote becomes two. -/
def doubleQuotesIn : List Char → List Char
  | [] => []
  | c :: cs =>
      if c = quoteChar then quoteChar :: quoteChar :: doubleQuotesIn cs
      else c :: doubleQuotesIn cs

/-- One CSV field (line 2254): always wrapped in double quotes, internal
quotes doubled. -/
def csvQuote (s : String) : String :=
  String.mk (quoteChar :: (doubleQuotesIn s.data ++ [quoteChar]))

/-- One CSV line (line 2254): quoted cells joined with commas. -/
def csvLine (cells : List String) : String :=
  String.intercalate "," (cells.map csvQuote)

/-- exportToCSV (lines 2232-2262): refuse with no file when no run is
visible, otherwise the header line and one line per visible run joined by
newlines. -/
def exportToCSV (allRuns : List RunRecord) (visible : List String) :
    Option String :=
  let visibleRunsData := allRuns.filter (fun r => visible.contains r.run)
  if visibleRunsData.isEmpty then none
  else some (String.intercalate "\n"
    ((csvHeaders :: visibleRunsData.map csvRow).map csvLine))

/-- Inverse of the quote doubling: collapse each doubled quote. -/
def halveQuotes : List Char → List Char
  | [] => []
  | [c] => [c]
  | c :: d :: cs =>
      if c = quoteChar ∧ d = quoteChar then quoteChar :: halveQuotes cs
      else c :: halveQuotes (d :: cs)

/-- RFC4180 field parser: strip the surrounding quotes and collapse the
doubled internal quotes. -/
def csvUnquoteField (s : String) : Option String :=
  match s.data with
  | [] => none
  | c :: rest =>
      if c = quoteChar ∧ rest.getLast? = some quoteChar then
        some (String.mk (halveQuotes rest.dropLast))
      else none

lemma halveQuotes_doubleQuotesIn (cs : List Char) :
    halveQuotes (doubleQuotesIn cs) = cs := by
  induction cs with
  | nil => rfl
  | cons c cs ih =>
      by_cases h : c = quoteChar
      · subst h
        rw [doubleQuotesIn, if_pos rfl, halveQuotes, if_pos ⟨rfl, rfl⟩, ih]
      · rw [doubleQuotesIn, if_neg h]
        cases hcs : doubleQuotesIn cs with
        | nil =>
            rw [hcs] at ih
            rw [halveQuotes, ← ih]
            rfl
        | cons d ds =>
            rw [hcs] at ih
            rw [halveQuotes, if_neg (fun hc => h hc.1), ih]

lemma csvUnquoteField_csvQuote (s : String) :
    csvUnquoteField (csvQuote s) = some s := by
  obtain ⟨cs⟩ := s
  show csvUnquoteField
      (String.mk (quoteChar :: (doubleQuotesIn cs ++ [quoteChar])))
      = some (String.mk cs)
  rw [csvUnquoteField]
  simp only [List.getLast?_concat]
  rw [if_pos (by simp), List.dropLast_concat, halveQuotes_doubleQuotesIn]

lemma jsToFixed_eval (q : ℚ) (f n : Nat) (hq : ¬ q < 0)
    (hn : ⌊|q| * 10 ^ f + 1 / 2⌋ = (n : ℤ)) :
    jsToFixed q f = jsToFixedParts n f := by
  rw [jsToFixed, if_neg hq, hn]
  simp

lemma jsToFixed_twenty : jsToFixed 20 2 = "20.00" := by
  have h : (⌊|(20 : ℚ)| * 10 ^ 2 + 1 / 2⌋ : ℤ) = ((2000 : ℕ) : ℤ) := by
    rw [show |(20 : ℚ)| = 20 from abs_of_nonneg (by norm_num)]
    norm_num
  rw [jsToFixed_eval 20 2 2000 (by norm_num) h]
  decide

lemma jsToFixed_eighth_two : jsToFixed ((8 : ℚ)⁻¹) 2 = "0.13" := by
  have h : (⌊|(8 : ℚ)⁻¹| * 10 ^ 2 + 1 / 2⌋ : ℤ) = ((13 : ℕ) : ℤ) := by
    rw [show |(8 : ℚ)⁻¹| = 8⁻¹ from abs_of_nonneg (by norm_num)]
    norm_num
  rw [jsToFixed_eval ((8 : ℚ)⁻¹) 2 13 (by norm_num) h]
  decide

lemma jsToFixed_eighth_four : jsToFixed ((8 : ℚ)⁻¹) 4 = "0.1250" := by
  have h : (⌊|(8 : ℚ)⁻¹| * 10 ^ 4 + 1 / 2⌋ : ℤ) = ((1250 : ℕ) : ℤ) := by
    rw [show |(8 : ℚ)⁻¹| = 8⁻¹ from abs_of_nonneg (by norm_num)]
    norm_num
  rw [jsToFixed_eval ((8 : ℚ)⁻¹) 4 1250 (by norm_num) h]
  decide

/-- A visible run carrying a precomputed size ratio of 20 and a raw model
size of 0.125 MB. -/
def csvCounterRecord : RunRecord :=
  { blankRecord "m" with size_ratio := some 20, model_size_fp32 := some (1/8) }

/-- Claim C5 as stated is false: the exported size-ratio cell for a ratio
of 20 is 20.00 with no trailing x, although the display (formatRatio)
shows 20.00x, and the exported model-size cell for the raw value 0.125 is
0.13 at 2 decimals, although the display (formatVal) shows the raw value
at 4 decimals as 0.1250. -/
theorem exportToCSV_precision_counterexample :
    (csvRow csvCounterRecord)[4]? = some "20.00" ∧
    formatRatio csvCounterRecord.size_ratio = "20.00x" ∧
    ("20.00" : String) ≠ "20.00x" ∧
    (csvRow csvCounterRecord)[8]? = some "0.13" ∧
    formatVal csvCounterRecord.model_size_fp32 = "0.1250" ∧
    ("0.13" : String) ≠ "0.1250" := by
  refine ⟨?_, ?_, by decide, ?_, ?_, by decide⟩
  · simp [csvRow, csvCounterRecord, blankRecord, optFixed, jsToFixed_twenty]
  · simp [formatRatio, csvCounterRecord, blankRecord, jsToFixed_twenty]
  · simp [csvRow, csvCounterRecord, blankRecord, optFixed,
      jsToFixed_eighth_two]
  · simp [formatVal, csvCounterRecord, blankRecord, jsToFixed_eighth_four]

/-- Claim C5 (amended): exportToCSV refuses exactly when no run is visible;
otherwise it emits the fixed header line plus one line per visible run in
order, every field quoted with internal double quotes doubled (RFC4180, so
field quoting round-trips); accuracy and reduction fields are fixed to 4
decimal places, while size_ratio, speedup and both model-size fields are
fixed to 2 decimal places, and no trailing x is written to the CSV. -/
theorem exportToCSV_amended :
    ∀ (allRuns : List RunRecord) (visible : List String) (s : String)
      (r : RunRecord) (q : ℚ),
      (exportToCSV allRuns visible = none ↔
        allRuns.filter (fun r => visible.contains r.run) = []) ∧
      (∀ out, exportToCSV allRuns visible = some out →
        out = String.intercalate "\n"
          ((csvHeaders ::
            (allRuns.filter (fun r => visible.contains r.run)).map
              csvRow).map csvLine)) ∧
      csvUnquoteField (csvQuote s) = some s ∧
      (csvRow r).length = csvHeaders.length ∧
      (r.size_ratio = some q → (csvRow r)[4]? = some (jsToFixed q 2)) ∧
      (r.model_size_fp32 = some q → (csvRow r)[8]? = some (jsToFixed q 2)) ∧
      (r.accuracy_fp32 = some q → (csvRow r)[1]? = some (jsToFixed q 4)) := by
  intro allRuns visible s r q
  refine ⟨?_, ?_, csvUnquoteField_csvQuote s, rfl, ?_, ?_, ?_⟩
  · rw [exportToCSV]
    split
    · rename_i h
      simpa using List.isEmpty_iff.mp h
    · rename_i h
      have h' : allRuns.filter (fun r => visible.contains r.run) ≠ [] := by
        intro hnil
        exact h (by rw [hnil]; rfl)
      constructor
      · intro hc
        exact absurd hc (by simp)
      · intro hc
        exact absurd hc h'
  · intro out hout
    rw [exportToCSV] at hout
    split at hout
    · exact absurd hout (by simp)
    · exact (Option.some_inj.mp hout).symm
  · intro h; simp [csvRow, optFixed, h]
  · intro h; simp [csvRow, optFixed, h]
  · intro h; simp [csvRow, optFixed, h]

/-- Concrete instance of the amended Claim C5: sampleRecord's size ratio 20
exports as toFixed(2) and its fp32 accuracy 0.99 as toFixed(4), and field
quoting round-trips on its run id. -/
theorem exportToCSV_amended_witness :
    (csvRow sampleRecord)[4]? = some (jsToFixed 20 2) ∧
    (csvRow sampleRecord)[1]? = some (jsToFixed (99/100) 4) ∧
    csvUnquoteField (csvQuote "alexnet") = some "alexnet" := by
  have h1 := exportToCSV_amended [] [] "alexnet" sampleRecord 20
  have h2 := exportToCSV_amended [] [] "alexnet" sampleRecord (99/100)
  exact ⟨h1.2.2.2.2.1 rfl, h2.2.2.2.2.2.2 rfl, h1.2.2.1⟩

/-- The scalar series a run exposes: full tag string to the list of stored
values in step order.  Both upstream backends (data_provider and
multiplexer) present this shape to _serve_summary. -/
def TagSeries : Type := List (String × List ℚ)

/-- The per-run store read by _serve_summary: run name with its tags. -/
def Store : Type := List (String × TagSeries)

/-- The get_scalar helper of _serve_summary (lines 2554-2559 and
2602-2608): read the series of run/suffix and take the most recent value;
a missing tag or an empty series yields null. -/
def getScalar (tags : TagSeries) (runName tagSuffix : String) : Option ℚ :=
  match List.lookup (runName ++ "/" ++ tagSuffix) tags with
  | some items => items.getLast?
  | none => none

/-- Python x or y on optional floats: y when x is falsy, i.e. None or 0.0;
this is the fallback chaining of lines 2572-2577. -/
def pyOr (a b : Option ℚ) : Option ℚ :=
  match a with
  | some x => if x = 0 then b else some x
  | none => b

/-- The record body built per run by _serve_summary (lines 2561-2578): the
latency, memory and energy fields chain their alternative tag spellings
with Python or. -/
def buildRunRecord (runName : String) (tags : TagSeries) : RunRecord :=
  { run := runName
  , accuracy_fp32 := getScalar tags runName "metrics/accuracy/fp32"
  , accuracy_int8 := getScalar tags runName "metrics/accuracy/int8"
  , accuracy_drop := getScalar tags runName "compression/accuracy_drop"
  , size_ratio := getScalar tags runName "compression/size_ratio"
  , speedup := getScalar tags runName "compression/speedup"
  , memory_reduction_mb :=
      getScalar tags runName "compression/memory_reduction_mb"
  , energy_reduction_mw :=
      getScalar tags runName "compression/energy_reduction_mw"
  , model_size_fp32 :=
      getScalar tags runName "performance/model_size_mb/fp32"
  , model_size_int8 :=
      getScalar tags runName "performance/model_size_mb/int8"
  , latency_fp32 :=
      pyOr (getScalar tags runName "performance/latency_ms/fp32")
        (getScalar tags runName "performance/latency/fp32")
  , latency_int8 :=
      pyOr (getScalar tags runName "performance/latency_ms/int8")
        (getScalar tags runName "performance/latency/int8")
  , memory_fp32 :=
      pyOr (getScalar tags runName "performance/memory_usage_mb/fp32")
        (getScalar tags runName "performance/memory_usage/fp32")
  , memory_int8 :=
      pyOr (getScalar tags runName "performance/memory_usage_mb/int8")
        (getScalar tags runName "performance/memory_usage/int8")
  , energy_fp32 :=
      pyOr (pyOr (getScalar tags runName "performance/energy_mw/fp32")
          (getScalar tags runName "performance/energy_consumption_mw/fp32"))
        (getScalar tags runName "performance/energy/fp32")
  , energy_int8 :=
      pyOr (pyOr (getScalar tags runName "performance/energy_mw/int8")
          (getScalar tags runName "performance/energy_consumption_mw/int8"))
        (getScalar tags runName "performance/energy/int8") }

/-- The compression-tag test of lines 2538 and 2597: some tag name contains
the substring compression/. -/
def hasCompressionTags (tags : TagSeries) : Bool :=
  tags.any (fun t => seqContains t.1.data ("compression/").data)

/-- The run loop of _serve_summary: skip runs with no compression tags,
build one record for each of the rest. -/
def buildRuns (store : Store) : List RunRecord :=
  (store.filter (fun p => hasCompressionTags p.2)).map
    (fun p => buildRunRecord p.1 p.2)

/-- The JSON body written by _serve_summary. -/
structure SummaryBody where
  runs : List RunRecord
  error : Option String
deriving DecidableEq

/-- The upstream situations _serve_summary can encounter: a backend is
available and the read succeeds; the read raises (caught at line 2634); or
neither data_provider nor multiplexer exists (line 2632). -/
inductive UpstreamRead where
  | ok (store : Store)
  | readError (msg : String)
  | noBackend

/-- The handler _serve_summary (lines 2512-2639) as a total function: HTTP status and
JSON body.  The entire read is wrapped in try/except, so every outcome is
answered with status 200 (http_util.Respond's default) and one of the two
body shapes. -/
def serveSummary : UpstreamRead → Nat × SummaryBody
  | .ok store => (200, { runs := buildRuns store, error := none })
  | .readError m => (200, { runs := [], error := some m })
  | .noBackend =>
      (200, { runs := []
            , error := some "neither data_provider nor multiplexer available" })

/-- Claim C8: _serve_summary is total (the model is a total function; the
Python body catches every exception of the upstream read) and always
answers 200: on success the body is the runs list with no error key, and
on any failure, including the no-backend case, the body is an empty runs
list with an error message. -/
theorem serveSummary_contract :
    ∀ u : UpstreamRead,
      (serveSummary u).1 = 200 ∧
      ((∃ store, u = UpstreamRead.ok store ∧
          (serveSummary u).2 = { runs := buildRuns store, error := none }) ∨
        ((serveSummary u).2.runs = [] ∧
          ∃ m, (serveSummary u).2.error = some m)) := by
  intro u
  cases u with
  | ok store => exact ⟨rfl, Or.inl ⟨store, rfl, rfl⟩⟩
  | readError m => exact ⟨rfl, Or.inr ⟨rfl, m, rfl⟩⟩
  | noBackend =>
      exact ⟨rfl, Or.inr
        ⟨rfl, "neither data_provider nor multiplexer available", rfl⟩⟩

/-- Claim C10: in _serve_summary a most recent stored value of exactly 0
under the primary latency/memory/energy tag falls through the Python or to
the fallback tag, exactly as when the primary tag is absent, so the
endpoint's output cannot distinguish a measured zero from an unmeasured
field. -/
theorem buildRunRecord_zero_falls_through :
    ∀ (runName : String) (tags : TagSeries),
      ((getScalar tags runName "performance/latency_ms/fp32" = some 0 ∨
        getScalar tags runName "performance/latency_ms/fp32" = none) →
        (buildRunRecord runName tags).latency_fp32
          = getScalar tags runName "performance/latency/fp32") ∧
      ((getScalar tags runName "performance/latency_ms/int8" = some 0 ∨
        getScalar tags runName "performance/latency_ms/int8" = none) →
        (buildRunRecord runName tags).latency_int8
          = getScalar tags runName "performance/latency/int8") ∧
      ((getScalar tags runName "performance/memory_usage_mb/fp32" = some 0 ∨
        getScalar tags runName "performance/memory_usage_mb/fp32" = none) →
        (buildRunRecord runName tags).memory_fp32
          = getScalar tags runName "performance/memory_usage/fp32") ∧
      ((getScalar tags runName "performance/energy_mw/fp32" = some 0 ∨
        getScalar tags runName "performance/energy_mw/fp32" = none) →
        (buildRunRecord runName tags).energy_fp32
          = pyOr
              (getScalar tags runName "performance/energy_consumption_mw/fp32")
              (getScalar tags runName "performance/energy/fp32")) := by
  intro runName tags
  refine ⟨?_, ?_, ?_, ?_⟩ <;>
    · rintro (h | h) <;> simp [buildRunRecord, pyOr, h]

/-- A store for one run whose primary latency tag most recently logged
exactly 0 while the fallback spelling logged 7. -/
def zeroLatencyTags : TagSeries :=
  [ ("r1/performance/latency_ms/fp32", [3, 0])
  , ("r1/performance/latency/fp32", [7])
  , ("r1/compression/speedup", [2]) ]

/-- Concrete instance of Claim C10: with a measured 0 most recent under the
primary tag the endpoint reports the fallback tag's 7, not the 0. -/
theorem buildRunRecord_zero_falls_through_witness :
    (buildRunRecord "r1" zeroLatencyTags).latency_fp32 = some 7 := by
  have h := (buildRunRecord_zero_falls_through "r1" zeroLatencyTags).1
    (Or.inl (by decide))
  rw [h]
  decide

/-- The multiplexer as is_active sees it: the run names, and the Scalars
read, which returns the event list for an existing tag and raises for a
missing one (modelled as none, caught by the inner except). -/
structure MuxModel where
  muxRuns : List String
  scalarsFor : String → String → Option (List ℚ)

/-- is_active (compression_plugin.py lines 25-45), transcribed branch by
branch: no multiplexer gives True, no runs gives True, a run with a
nonempty run/compression/speedup series gives True, and falling off the
loop (line 43) or any exception (line 45) also gives True. -/
def is_active (mux : Option MuxModel) : Bool :=
  match mux with
  | none => true
  | some m =>
      if m.muxRuns.isEmpty then true
      else if m.muxRuns.any (fun r =>
          match m.scalarsFor r (r ++ "/compression/speedup") with
          | some events => !events.isEmpty
          | none => false) then true
      else true

/-- Modelled from the spec: the readiness condition the spec attributes to
is_active, namely that some run in the upstream store carries compression
data (a nonempty compression/speedup series under its tag). -/
def hasCompressionData (mux : Option MuxModel) : Bool :=
  match mux with
  | none => false
  | some m =>
      m.muxRuns.any (fun r =>
        match m.scalarsFor r (r ++ "/compression/speedup") with
        | some events => !events.isEmpty
        | none => false)

/-- A multiplexer with one run and no stored tags at all. -/
def muxNoData : MuxModel :=
  { muxRuns := ["run1"], scalarsFor := fun _ _ => none }

/-- Claim C9 as stated is false: with a multiplexer holding a run and no
compression-tagged data at all, is_active still returns True while the
readiness condition of the spec is False, so is_active is not equivalent
to data presence. -/
theorem is_active_iff_counterexample :
    is_active (some muxNoData) = true ∧
    hasCompressionData (some muxNoData) = false := by
  constructor <;> rfl

/-- Claim C9 (amended): is_active returns True unconditionally - on every
multiplexer state, with or without compression-tagged data, and also when
no multiplexer is available. -/
theorem is_active_always_true :
    ∀ mux : Option MuxModel, is_active mux = true := by
  intro mux
  cases mux with
  | none => rfl
  | some m =>
      rw [is_active]
      split
      · rfl
      · split <;> rfl
